import Mathlib

/-!
# goatcov: coverage reports and their diff

A shallow embedding of `main.go` of goatcov: the data model (`overview`, `file`,
`fun`), the report builder `report` and the differ `diff`.

Modelling conventions.

* `float64` percentages are exact rationals (`ℚ`); rounding is not modelled and
  no NaN exists (the percentage helpers never divide by zero).
* An `int64` is an `Int` in the 64-bit range; an `int64` addition is followed by
  `wrap64`, the reduction into that range (two's complement wrap-around).
* A Go `error` is the message it carries; a Go result pair `(v, err)` of the
  function embedded here is a pair `(v, Option Error)`, `none` being `nil`.
* What `diff` prints is the list of its `Fprintf` calls, one `DiffLine` per
  call carrying the call's arguments; column alignment and number formatting
  are not modelled.
* A Go `map[string]V` is an association list; the newest binding of a key
  shadows the older ones.
-/

namespace Goatcov

/-! ## Data model -/

/-- A Go `error`, identified with its message. -/
abbrev Error := String

/-- One block of a coverage profile, `cover.ProfileBlock`. -/
structure ProfileBlock where
  StartLine : Int
  StartCol : Int
  EndLine : Int
  EndCol : Int
  NumStmt : Int
  Count : Int
  deriving DecidableEq, Repr

/-- The coverage data of one source file, `cover.Profile`. -/
structure Profile where
  FileName : String
  Mode : String
  Blocks : List ProfileBlock
  deriving DecidableEq, Repr

/-- The extent of one function declaration in a source file, `FuncExtent`; its
declaring file is not part of `main.go`, the fields are the ones `report` and the
spec (a name and a line span) use. -/
structure FuncExtent where
  name : String
  startLine : Int
  startCol : Int
  endLine : Int
  endCol : Int
  deriving DecidableEq, Repr

/-- The struct `fun` of `main.go` (renamed: `fun` is a keyword). -/
structure Fun where
  Name : String
  Coverage : ℚ
  deriving DecidableEq, Repr

/-- The struct `file` of `main.go`. -/
structure file where
  Name : String
  Coverage : ℚ
  Funcs : List Fun
  deriving DecidableEq, Repr

/-- The struct `overview` of `main.go`. -/
structure overview where
  Coverage : ℚ
  Files : List file
  deriving DecidableEq, Repr

/-- The zero value `overview{}`. -/
def overview.zero : overview := { Coverage := 0, Files := [] }

/-! ## 64-bit integers -/

/-- The value an `int64` holds after an arithmetic result `x`: `x` reduced modulo `2^64`
into the range from `-2^63` to `2^63 - 1`. -/
def wrap64 (x : Int) : Int :=
  (x + 9223372036854775808) % 18446744073709551616 - 9223372036854775808

/-- Whether an integer lies in the `int64` range. -/
def inInt64 (x : Int) : Prop := -9223372036854775808 ≤ x ∧ x < 9223372036854775808

/-- The statement `acc += c` repeated over a list of `int64` values. -/
def addAll64 (acc : Int) (cs : List Int) : Int :=
  cs.foldl (fun a c => wrap64 (a + c)) acc

/-! ## Go maps keyed by strings -/

/-- A `map[string]V`: newest binding first. -/
abbrev GoMap (V : Type) := List (String × V)

/-- The statement `m[k] = v`. -/
def GoMap.set {V : Type} (m : GoMap V) (k : String) (v : V) : GoMap V := (k, v) :: m

/-- The lookup `v, ok := m[k]`. -/
def GoMap.get {V : Type} (m : GoMap V) (k : String) : Option V :=
  match m with
  | [] => none
  | (k1, v) :: rest => if k1 = k then some v else GoMap.get rest k

/-! ## What `report` calls outside `main.go` -/

/-- The library function `sliceutil.InStringSlice(list, str)` of the dependency
`zgo.at/utils`: it reports whether `str` is an element of `list` (string equality). -/
def InStringSlice (list : List String) (str : String) : Bool :=
  match list with
  | [] => false
  | item :: rest => if item = str then true else InStringSlice rest str

/-- Modelled from the spec: the helper `percent` is not in `main.go`; section 4.4 gives
`percent(c,t) = 0 if t==0 else 100*c/t`. -/
def percent (covered total : Int) : ℚ :=
  if total = 0 then 0 else 100 * (covered : ℚ) / (total : ℚ)

/-- The counting rule of section 4.3 for a list of blocks: every block adds its statement
count to the total, and to the covered count when its hit count is positive. The result
is `(covered, total)`, two `int64` values. -/
def countBlocks (blocks : List ProfileBlock) : Int × Int :=
  blocks.foldl
    (fun acc b =>
      (if b.Count > 0 then wrap64 (acc.1 + b.NumStmt) else acc.1, wrap64 (acc.2 + b.NumStmt)))
    (0, 0)

/-- Modelled from the spec: the method `coverage` of `FuncExtent` is not in `main.go`;
section 4.3 attributes a block to the function when the block's start line lies in the
function's line span, and counts the attributed blocks. The result is
`(covered, total)`, the order of the Go results `c, t`. -/
def FuncExtent.coverage (f : FuncExtent) (profile : Profile) : Int × Int :=
  countBlocks (profile.Blocks.filter
    (fun b => decide (f.startLine ≤ b.StartLine ∧ b.StartLine ≤ f.endLine)))

/-- Everything `report` calls that lives outside `main.go`. The first four fields read
the file system or run the Go toolchain; the last three are the helpers of the
repository whose bodies are not among the sources: they are parameters, so the general
results below hold for any implementation of them. `coverage` returns two `int64`
values. -/
structure Env where
  /-- The type of `dirs`, the package index `findPkgs` returns. -/
  Dirs : Type
  /-- The library function `cover.ParseProfiles(fileName)`. -/
  ParseProfiles : String → Except Error (List Profile)
  /-- The call `findPkgs(srcdir, prof)`. -/
  findPkgs : String → List Profile → Except Error Dirs
  /-- The call `findFile(dirs, fileName)`. -/
  findFile : Dirs → String → Except Error String
  /-- The call `findFuncs(f)`. -/
  findFuncs : String → Except Error (List FuncExtent)
  /-- The call `percentCovered(p)`. -/
  percentCovered : Profile → ℚ
  /-- The call `fn.coverage(p)`, returning `(c, t)`. -/
  coverage : FuncExtent → Profile → Int × Int
  /-- The call `percent(c, t)`. -/
  percent : Int → Int → ℚ

/-! ## `report` -/

/-- The local variables of `report` that its loops update. -/
structure ReportState where
  ret : overview
  total : Int
  covered : Int

/-- The inner loop of `report` (`for _, fn := range funcs`), over the file `o` being
built and the two `int64` counters `total` and `covered`. -/
def reportFuncs (env : Env) (p : Profile) :
    List FuncExtent → file × Int × Int → file × Int × Int
  | [], acc => acc
  | fn :: rest, (o, total, covered) =>
    let ct := env.coverage fn p
    reportFuncs env p rest
      ({ o with Funcs := o.Funcs ++ [{ Name := fn.name, Coverage := env.percent ct.1 ct.2 }] },
        wrap64 (total + ct.2), wrap64 (covered + ct.1))

/-- The outer loop of `report` (`for _, p := range prof`) followed by the two closing
statements of `report`. -/
def reportLoop (env : Env) (dirs : env.Dirs) (exclude : List String) :
    List Profile → ReportState → overview × Option Error
  | [], st => ({ st.ret with Coverage := env.percent st.covered st.total }, none)
  | p :: rest, st =>
    if InStringSlice exclude p.FileName then
      reportLoop env dirs exclude rest st
    else
      match env.findFile dirs p.FileName with
      | .error err => (overview.zero, some err)
      | .ok f =>
        match env.findFuncs f with
        | .error err => (overview.zero, some err)
        | .ok funcs =>
          let o : file := { Name := p.FileName, Coverage := env.percentCovered p, Funcs := [] }
          let r := reportFuncs env p funcs (o, st.total, st.covered)
          reportLoop env dirs exclude rest
            { ret := { st.ret with Files := st.ret.Files ++ [r.1] },
              total := r.2.1, covered := r.2.2 }

/-- The function `report(coverfile, srcdir, exclude)`. -/
def report (env : Env) (coverfile srcdir : String) (exclude : List String) :
    overview × Option Error :=
  match env.ParseProfiles coverfile with
  | .error err => (overview.zero, some err)
  | .ok prof =>
    match env.findPkgs srcdir prof with
    | .error err => (overview.zero, some err)
    | .ok dirs =>
      reportLoop env dirs exclude prof { ret := overview.zero, total := 0, covered := 0 }

/-! ## `diff` -/

/-- One `Fprintf` call of `diff`, with the call's arguments. -/
inductive DiffLine where
  /-- The line `Total old → new (delta)`. -/
  | total (old new delta : ℚ)
  /-- The header line of a file. -/
  | fileHeader (name : String) (old new delta : ℚ)
  /-- The row of a function. -/
  | funcRow (name : String) (old new delta : ℚ)
  deriving DecidableEq, Repr

/-- The loop `for _, f := range r1.Files { files[f.Name] = f }`. -/
def baselineFiles (r1 : overview) : GoMap file :=
  r1.Files.foldl (fun m f => m.set f.Name f) []

/-- The loop `for _, fn := range f1.Funcs { funcs[fn.Name] = fn }`. -/
def baselineFuncs (f1 : file) : GoMap Fun :=
  f1.Funcs.foldl (fun m fn => m.set fn.Name fn) []

/-- The inner loop of `diff` (`for _, fn2 := range f2.Funcs`), over the flag
`shownFile` and what has been written to `tab`. -/
def diffFuncs (f1 f2 : file) (funcs : GoMap Fun) :
    List Fun → Bool × List DiffLine → Bool × List DiffLine
  | [], acc => acc
  | fn2 :: rest, (shownFile, tab) =>
    let fn1 : Fun :=
      match funcs.get fn2.Name with
      | some fn => fn
      | none => { Name := fn2.Name, Coverage := 0 }
    if fn1.Coverage ≠ fn2.Coverage then
      let tab1 :=
        if !shownFile then
          tab ++ [DiffLine.fileHeader f2.Name f1.Coverage f2.Coverage (f2.Coverage - f1.Coverage)]
        else tab
      diffFuncs f1 f2 funcs rest
        (true, tab1 ++
          [DiffLine.funcRow fn2.Name fn1.Coverage fn2.Coverage (fn2.Coverage - fn1.Coverage)])
    else
      diffFuncs f1 f2 funcs rest (shownFile, tab)

/-- One round of the outer loop of `diff` (`for _, f2 := range r2.Files`): the lines
the round adds to the builder `b`. The table writer is flushed only when `shownFile`
is set, and nothing was written to it otherwise. -/
def diffFile (files : GoMap file) (f2 : file) : List DiffLine :=
  let f1 : file :=
    match files.get f2.Name with
    | some f => f
    | none => { Name := f2.Name, Coverage := 0, Funcs := [] }
  let r := diffFuncs f1 f2 (baselineFuncs f1) f2.Funcs (false, [])
  if r.1 then r.2 else []

/-- The part of `diff` after the two reports are built (from `b := new(strings.Builder)`
to the final `Println`): the lines printed for the baseline `r1` and the current `r2`. -/
def diffOverviews (r1 r2 : overview) : List DiffLine :=
  let b : List DiffLine :=
    if r1.Coverage ≠ r2.Coverage then
      [DiffLine.total r1.Coverage r2.Coverage (r2.Coverage - r1.Coverage)]
    else []
  r2.Files.foldl (fun b f2 => b ++ diffFile (baselineFiles r1) f2) b

/-- The function `diff(html, coverfile, prevfile, srcdir, exclude)`: the printed lines
and the returned error. -/
def diff (env : Env) (_html : Bool) (coverfile prevfile srcdir : String)
    (exclude : List String) : List DiffLine × Option Error :=
  match report env prevfile srcdir exclude with
  | (_, some err) => ([], some err)
  | (r1, none) =>
    match report env coverfile srcdir exclude with
    | (_, some err) => ([], some err)
    | (r2, none) => (diffOverviews r1 r2, none)

/-! ## Notions used to state the properties -/

/-- The profile entries the loop of `report` does not skip: those for which the test
`InStringSlice(exclude, p.FileName)` of the code is false. -/
def keptEntries (exclude : List String) (prof : List Profile) : List Profile :=
  prof.filter (fun p => !InStringSlice exclude p.FileName)

/-- The Go library function `strings.HasPrefix(s, pre)`. -/
def HasPrefix (s pre : String) : Bool := pre.data.isPrefixOf s.data

/-- Exclusion as the usage text of `-exclude` and the spec define it: some exclude string
is a literal prefix of the file identifier. -/
def excludedByPrefix (exclude : List String) (name : String) : Bool :=
  exclude.any (fun e => HasPrefix name e)

/-- The non-excluded entries of a profile, exclusion being the prefix test. -/
def nonExcluded (exclude : List String) (prof : List Profile) : List Profile :=
  prof.filter (fun p => !excludedByPrefix exclude p.FileName)

/-- The error, if any, of resolving the entry `p` (`findFile`) and extracting its
functions (`findFuncs`). -/
def entryError (env : Env) (dirs : env.Dirs) (p : Profile) : Option Error :=
  match env.findFile dirs p.FileName with
  | .error err => some err
  | .ok f =>
    match env.findFuncs f with
    | .error err => some err
    | .ok _ => none

/-- The functions the extractor returns for the entry `p` (the empty list when a step fails). -/
def entryFuncs (env : Env) (dirs : env.Dirs) (p : Profile) : List FuncExtent :=
  match env.findFile dirs p.FileName with
  | .error _ => []
  | .ok f =>
    match env.findFuncs f with
    | .error _ => []
    | .ok funcs => funcs

/-- The `(covered, total)` pairs the per-function coverage calculation returns for the
functions of the entry `p`, in the extractor's order. -/
def entryCounts (env : Env) (dirs : env.Dirs) (p : Profile) : List (Int × Int) :=
  (entryFuncs env dirs p).map (fun fn => env.coverage fn p)

/-- The sum of the covered counts of a list of `(covered, total)` pairs. -/
def sumCovered (counts : List (Int × Int)) : Int := (counts.map Prod.fst).sum

/-- The sum of the total counts of a list of `(covered, total)` pairs. -/
def sumTotal (counts : List (Int × Int)) : Int := (counts.map Prod.snd).sum

/-- The pairs of all functions of all entries the loop of `report` does not skip, in
processing order. -/
def allCounts (env : Env) (dirs : env.Dirs) (exclude : List String) (prof : List Profile) :
    List (Int × Int) :=
  (keptEntries exclude prof).flatMap (entryCounts env dirs)

/-- The pairs of all functions of all non-excluded entries, in profile order. -/
def nonExcludedCounts (env : Env) (dirs : env.Dirs) (exclude : List String)
    (prof : List Profile) : List (Int × Int) :=
  (nonExcluded exclude prof).flatMap (entryCounts env dirs)

/-- The `file` value `report` builds for the entry `p` when both steps succeed. -/
def entryFile (env : Env) (dirs : env.Dirs) (p : Profile) : file :=
  { Name := p.FileName
    Coverage := env.percentCovered p
    Funcs := (entryFuncs env dirs p).map (fun fn =>
      { Name := fn.name, Coverage := env.percent (env.coverage fn p).1 (env.coverage fn p).2 }) }

/-- The mean of a list of percentages. -/
def mean (xs : List ℚ) : ℚ := xs.sum / xs.length

/-- The error of the first processed entry that fails, if any. -/
def firstError (env : Env) (dirs : env.Dirs) (exclude : List String) (prof : List Profile) :
    Option Error :=
  (keptEntries exclude prof).findSome? (entryError env dirs)

/-- The baseline file the lookup `files[name]` stands for: the last file of the baseline
overview with that name, if any. -/
def baselineFile (O1 : overview) (name : String) : Option file :=
  O1.Files.reverse.find? (fun f => decide (f.Name = name))

/-- The baseline percentage of a file: 0 when the baseline has no file of that name. -/
def baselineFileCoverage (O1 : overview) (name : String) : ℚ :=
  match baselineFile O1 name with
  | some f1 => f1.Coverage
  | none => 0

/-- The baseline function found by name in the same-named baseline file: the last
function of that file with the name, if any. -/
def baselineFunc (O1 : overview) (fileName fnName : String) : Option Fun :=
  match baselineFile O1 fileName with
  | some f1 => f1.Funcs.reverse.find? (fun fn => decide (fn.Name = fnName))
  | none => none

/-- The baseline percentage of a function: 0 when the file or the function is absent
from the baseline. -/
def baselineCoverage (O1 : overview) (fileName fnName : String) : ℚ :=
  match baselineFunc O1 fileName fnName with
  | some fn1 => fn1.Coverage
  | none => 0

/-- The row of the function `fn2` of the current file `f2` against the baseline `O1`. -/
def rowOf (O1 : overview) (f2 : file) (fn2 : Fun) : DiffLine :=
  DiffLine.funcRow fn2.Name (baselineCoverage O1 f2.Name fn2.Name) fn2.Coverage
    (fn2.Coverage - baselineCoverage O1 f2.Name fn2.Name)

/-- The header of the current file `f2` against the baseline `O1`. -/
def headerOf (O1 : overview) (f2 : file) : DiffLine :=
  DiffLine.fileHeader f2.Name (baselineFileCoverage O1 f2.Name) f2.Coverage
    (f2.Coverage - baselineFileCoverage O1 f2.Name)

/-- The rows of the functions of `f2` whose percentage differs from the baseline, in
the order of `f2.Funcs`. -/
def changedRows (O1 : overview) (f2 : file) : List DiffLine :=
  f2.Funcs.filterMap (fun fn2 =>
    if baselineCoverage O1 f2.Name fn2.Name ≠ fn2.Coverage then some (rowOf O1 f2 fn2) else none)

/-- Whether a line is a function row. -/
def DiffLine.isFuncRow : DiffLine → Bool
  | .funcRow _ _ _ _ => true
  | _ => false

/-- Whether a line is a file header. -/
def DiffLine.isFileHeader : DiffLine → Bool
  | .fileHeader _ _ _ _ => true
  | _ => false

/-- The file name of a header line. -/
def DiffLine.headerName? : DiffLine → Option String
  | .fileHeader name _ _ _ => some name
  | _ => none

/-- The function name of a function row. -/
def DiffLine.rowName? : DiffLine → Option String
  | .funcRow name _ _ _ => some name
  | _ => none

/-- The file names of the header lines of an output, in output order. -/
def headerNames (out : List DiffLine) : List String := out.filterMap DiffLine.headerName?

/-- The function names of the function rows of an output, in output order. -/
def rowNames (out : List DiffLine) : List String := out.filterMap DiffLine.rowName?

/-- The total line of the diff: present when the two total percentages differ. -/
def totalLines (O1 O2 : overview) : List DiffLine :=
  if O1.Coverage ≠ O2.Coverage then
    [DiffLine.total O1.Coverage O2.Coverage (O2.Coverage - O1.Coverage)]
  else []

/-- The lines of the current file `f2` in the diff against `O1`: nothing when no
function changed, otherwise the header followed by the changed rows. -/
def fileSection (O1 : overview) (f2 : file) : List DiffLine :=
  if changedRows O1 f2 = [] then [] else headerOf O1 f2 :: changedRows O1 f2

/-- The baseline percentage of a function name, read from a map of baseline functions:
the percentage of `fn1` in the inner loop of `diff`. -/
def mapCoverage (funcs : GoMap Fun) (name : String) : ℚ :=
  match GoMap.get funcs name with
  | some fn => fn.Coverage
  | none => 0

/-! ## Concrete inputs -/

/-- Modelled from the spec: the helper `percentCovered` is not in `main.go`. Section 3
defines the percentage of a file as covered/total over the statement counts of all its
functions; this is that value for a file whose functions are `funcs`. -/
def filePercent (funcs : List FuncExtent) (p : Profile) : ℚ :=
  percent (sumCovered (funcs.map (fun fn => fn.coverage p)))
    (sumTotal (funcs.map (fun fn => fn.coverage p)))

/-- An environment over fixed profiles and fixed extractor results: every file
identifier resolves to itself, `coverage` and `percent` are the helpers modelled from the
spec, and `percentCovered` gives every entry the file percentage of the spec for the
functions of its file in this environment. -/
def exampleEnv (profiles : String → Except Error (List Profile))
    (sources : String → Except Error (List FuncExtent)) : Env :=
  { Dirs := Unit
    ParseProfiles := profiles
    findPkgs := fun _ _ => .ok ()
    findFile := fun _ name => .ok name
    findFuncs := sources
    percentCovered := fun p =>
      match sources p.FileName with
      | .ok funcs => filePercent funcs p
      | .error _ => 0
    coverage := FuncExtent.coverage
    percent := percent }

/-- A block of `n` statements from line `l1` to line `l2`, hit `count` times. -/
def block (l1 l2 n count : Int) : ProfileBlock :=
  { StartLine := l1, StartCol := 13, EndLine := l2, EndCol := 2, NumStmt := n, Count := count }

/-- A function declared from line `l1` to line `l2`. -/
def extent (name : String) (l1 l2 : Int) : FuncExtent :=
  { name := name, startLine := l1, startCol := 1, endLine := l2, endCol := 2 }

/-- The entry of `a.go`: one statement, hit. -/
def entryA : Profile := { FileName := "a.go", Mode := "set", Blocks := [block 1 3 1 1] }

/-- The entry of `b.go`: three statements, none hit. -/
def entryB : Profile := { FileName := "b.go", Mode := "set", Blocks := [block 1 5 3 0] }

/-- Two files: `a.go` with `f` fully covered (1 of 1), `b.go` with `g` not covered
(0 of 3). -/
def twoFilesEnv : Env :=
  exampleEnv (fun _ => .ok [entryA, entryB])
    (fun name => if name = "a.go" then .ok [extent "f" 1 3] else .ok [extent "g" 1 5])

/-- The entry of `example.com/pkg/a.go`: one statement, hit. -/
def entryPkgA : Profile :=
  { FileName := "example.com/pkg/a.go", Mode := "set", Blocks := [block 1 3 1 1] }

/-- One file `example.com/pkg/a.go` with `f` fully covered. -/
def prefixEnv : Env :=
  exampleEnv (fun _ => .ok [entryPkgA]) (fun _ => .ok [extent "f" 1 3])

/-- The entry of the generated file `gen.go`: two statements, hit. -/
def entryGen : Profile := { FileName := "gen.go", Mode := "set", Blocks := [block 1 4 2 1] }

/-- Three files: `a.go` with `f` (1 of 1), `gen.go` with `h` (2 of 2) and `b.go` with `g`
(0 of 3); used with the exclude list `["gen.go"]`. -/
def excludingEnv : Env :=
  exampleEnv (fun _ => .ok [entryA, entryGen, entryB])
    (fun name =>
      if name = "a.go" then .ok [extent "f" 1 3]
      else if name = "gen.go" then .ok [extent "h" 1 4]
      else .ok [extent "g" 1 5])

/-- The entry of `big.go`: a block of `2^62` statements on lines 1 to 3, hit, and a
block of `2^62` statements on lines 5 to 7, not hit. -/
def entryBig : Profile :=
  { FileName := "big.go", Mode := "set",
    Blocks := [block 1 3 4611686018427387904 1, block 5 7 4611686018427387904 0] }

/-- The file `big.go` with `f` on lines 1 to 3 and `g` on lines 5 to 7. -/
def overflowEnv : Env :=
  exampleEnv (fun _ => .ok [entryBig]) (fun _ => .ok [extent "f" 1 3, extent "g" 5 7])

/-- The entry of `example.com/other/b.go`: three statements, none hit. -/
def entryOtherB : Profile :=
  { FileName := "example.com/other/b.go", Mode := "set", Blocks := [block 1 5 3 0] }

/-- Two files of two packages: `example.com/pkg/a.go` with `f` (1 of 1) and
`example.com/other/b.go` with `g` (0 of 3). -/
def twoPackagesEnv : Env :=
  exampleEnv (fun _ => .ok [entryPkgA, entryOtherB])
    (fun name => if name = "example.com/pkg/a.go" then .ok [extent "f" 1 3]
      else .ok [extent "g" 1 5])

/-- The baseline profile `prev.out` has `a.go` only; the current profile has `a.go` and the
new file `b.go`, whose function `g` is not covered. -/
def newFileEnv : Env :=
  exampleEnv (fun path => if path = "prev.out" then .ok [entryA] else .ok [entryA, entryB])
    (fun name => if name = "a.go" then .ok [extent "f" 1 3] else .ok [extent "g" 1 5])

/-- The entry of a file `a.go` with two methods named `String`, on lines 3 to 5 (hit) and
on lines 7 to 9 (not hit). -/
def entryMethods : Profile :=
  { FileName := "a.go", Mode := "set", Blocks := [block 3 5 1 1, block 7 9 1 0] }

/-- The file of `entryMethods`: the extractor names a method by its method name alone. -/
def methodsEnv : Env :=
  exampleEnv (fun _ => .ok [entryMethods]) (fun _ => .ok [extent "String" 3 5, extent "String" 7 9])

/-- An overview with two files of the same name. -/
def sameNameOverview : overview :=
  { Coverage := 50
    Files := [{ Name := "a.go", Coverage := 50, Funcs := [{ Name := "f", Coverage := 50 }] },
              { Name := "a.go", Coverage := 0, Funcs := [] }] }

/-- A baseline with `a.go` holding `f` at 50 and `g` at 100. -/
def baseOverview : overview :=
  { Coverage := 75
    Files := [{ Name := "a.go", Coverage := 75,
                Funcs := [{ Name := "f", Coverage := 50 }, { Name := "g", Coverage := 100 }] }] }

/-- The current file `a.go`: `f` at 100, `g` at 100 and the new function `h` at 25. -/
def curFileA : file :=
  { Name := "a.go", Coverage := 80,
    Funcs := [{ Name := "f", Coverage := 100 }, { Name := "g", Coverage := 100 },
              { Name := "h", Coverage := 25 }] }

/-- A current overview made of `curFileA`. -/
def curOverview : overview := { Coverage := 80, Files := [curFileA] }

/-- The overview of `twoFilesEnv`, and of `excludingEnv` under the exclude list
`["gen.go"]`. -/
def twoFilesOverview : overview :=
  { Coverage := 25
    Files := [{ Name := "a.go", Coverage := 100, Funcs := [{ Name := "f", Coverage := 100 }] },
              { Name := "b.go", Coverage := 0, Funcs := [{ Name := "g", Coverage := 0 }] }] }

/-- The overview of `overflowEnv`: the total counter wraps to `-2^63`. -/
def overflowOverview : overview :=
  { Coverage := -50
    Files := [{ Name := "big.go", Coverage := 50,
                Funcs := [{ Name := "f", Coverage := 100 }, { Name := "g", Coverage := 0 }] }] }

/-- The overview of `twoPackagesEnv`, whatever the exclude list `["example.com/pkg/"]`. -/
def twoPackagesOverview : overview :=
  { Coverage := 25
    Files := [{ Name := "example.com/pkg/a.go", Coverage := 100,
                Funcs := [{ Name := "f", Coverage := 100 }] },
              { Name := "example.com/other/b.go", Coverage := 0,
                Funcs := [{ Name := "g", Coverage := 0 }] }] }

/-- The overview of `prefixEnv`, whatever the exclude list `["example.com/pkg/"]`. -/
def prefixOverview : overview :=
  { Coverage := 100
    Files := [{ Name := "example.com/pkg/a.go", Coverage := 100,
                Funcs := [{ Name := "f", Coverage := 100 }] }] }

/-- The baseline overview of `newFileEnv`. -/
def newFileBaseline : overview :=
  { Coverage := 100
    Files := [{ Name := "a.go", Coverage := 100, Funcs := [{ Name := "f", Coverage := 100 }] }] }

/-- The overview of `methodsEnv`. -/
def methodsOverview : overview :=
  { Coverage := 50
    Files := [{ Name := "a.go", Coverage := 50,
                Funcs := [{ Name := "String", Coverage := 100 }, { Name := "String", Coverage := 0 }] }] }

/-! ## Lemmas on `report` -/

theorem wrap64_add_left (a b : Int) : wrap64 (wrap64 a + b) = wrap64 (a + b) := by
  unfold wrap64
  omega

theorem wrap64_of_inInt64 (a : Int) (h : inInt64 a) : wrap64 a = a := by
  unfold inInt64 at h
  unfold wrap64
  omega

theorem addAll64_wrap64 (a : Int) (cs : List Int) :
    addAll64 (wrap64 a) cs = wrap64 (a + cs.sum) := by
  induction cs generalizing a with
  | nil => simp [addAll64]
  | cons c rest ih =>
    have hstep : addAll64 (wrap64 a) (c :: rest) = addAll64 (wrap64 (a + c)) rest := by
      simp [addAll64, wrap64_add_left]
    rw [hstep, ih, List.sum_cons, add_assoc]

theorem reportFuncs_eq (env : Env) (p : Profile) (funcs : List FuncExtent) (o : file)
    (total covered : Int) :
    reportFuncs env p funcs (o, total, covered) =
      ({ o with Funcs := o.Funcs ++ funcs.map (fun fn =>
          { Name := fn.name, Coverage := env.percent (env.coverage fn p).1 (env.coverage fn p).2 }) },
        addAll64 total ((funcs.map (fun fn => env.coverage fn p)).map Prod.snd),
        addAll64 covered ((funcs.map (fun fn => env.coverage fn p)).map Prod.fst)) := by
  induction funcs generalizing o total covered with
  | nil => simp [reportFuncs, addAll64]
  | cons fn rest ih =>
    simp only [reportFuncs, ih, addAll64, List.map_cons, List.foldl_cons,
      List.append_assoc, List.singleton_append]

theorem reportLoop_eq (env : Env) (dirs : env.Dirs) (exclude : List String)
    (prof : List Profile) (st : ReportState) (t0 c0 : Int)
    (ht : st.total = wrap64 t0) (hc : st.covered = wrap64 c0) :
    reportLoop env dirs exclude prof st =
      match firstError env dirs exclude prof with
      | some err => (overview.zero, some err)
      | none =>
        ({ Coverage :=
              env.percent (wrap64 (c0 + sumCovered (allCounts env dirs exclude prof)))
                (wrap64 (t0 + sumTotal (allCounts env dirs exclude prof)))
           Files := st.ret.Files ++ (keptEntries exclude prof).map (entryFile env dirs) },
          none) := by
  induction prof generalizing st t0 c0 with
  | nil => simp [reportLoop, firstError, keptEntries, allCounts, sumCovered, sumTotal, ht, hc]
  | cons p rest ih =>
    by_cases hx : InStringSlice exclude p.FileName = true
    · have hk : keptEntries exclude (p :: rest) = keptEntries exclude rest := by
        simp [keptEntries, hx]
      simp only [reportLoop, hx, if_true, ih st t0 c0 ht hc, firstError, allCounts, hk]
    · have hk : keptEntries exclude (p :: rest) = p :: keptEntries exclude rest := by
        simp [keptEntries, hx]
      simp only [reportLoop, hx, firstError, allCounts, hk, List.findSome?_cons,
        List.flatMap_cons, List.map_cons]
      cases hf : env.findFile dirs p.FileName with
      | error err => simp [entryError, hf]
      | ok f =>
        cases hg : env.findFuncs f with
        | error err => simp [entryError, hf, hg]
        | ok funcs =>
          simp only [entryError, hf, hg, reportFuncs_eq]
          refine (ih _ (t0 + ((funcs.map (fun fn => env.coverage fn p)).map Prod.snd).sum)
            (c0 + ((funcs.map (fun fn => env.coverage fn p)).map Prod.fst).sum) ?_ ?_).trans ?_
          · show addAll64 st.total _ = _
            rw [ht]
            exact addAll64_wrap64 _ _
          · show addAll64 st.covered _ = _
            rw [hc]
            exact addAll64_wrap64 _ _
          · simp only [firstError, allCounts]
            cases hrest : List.findSome? (entryError env dirs) (keptEntries exclude rest) with
            | some err => simp
            | none =>
              simp [entryFile, entryFuncs, entryCounts, hf, hg, sumCovered, sumTotal, add_assoc]

theorem report_eq (env : Env) (coverfile srcdir : String) (exclude : List String)
    (prof : List Profile) (dirs : env.Dirs) (hp : env.ParseProfiles coverfile = .ok prof)
    (hd : env.findPkgs srcdir prof = .ok dirs) :
    report env coverfile srcdir exclude =
      match firstError env dirs exclude prof with
      | some err => (overview.zero, some err)
      | none =>
        ({ Coverage := env.percent (wrap64 (sumCovered (allCounts env dirs exclude prof)))
              (wrap64 (sumTotal (allCounts env dirs exclude prof)))
           Files := (keptEntries exclude prof).map (entryFile env dirs) },
          none) := by
  unfold report
  simp only [hp, hd]
  rw [reportLoop_eq env dirs exclude prof _ 0 0 (by simp [wrap64]) (by simp [wrap64])]
  cases firstError env dirs exclude prof <;> simp [overview.zero]

theorem report_ok (env : Env) (coverfile srcdir : String) (exclude : List String)
    (prof : List Profile) (dirs : env.Dirs) (ov : overview)
    (hp : env.ParseProfiles coverfile = .ok prof) (hd : env.findPkgs srcdir prof = .ok dirs)
    (h : report env coverfile srcdir exclude = (ov, none)) :
    firstError env dirs exclude prof = none ∧
    ov = { Coverage := env.percent (wrap64 (sumCovered (allCounts env dirs exclude prof)))
              (wrap64 (sumTotal (allCounts env dirs exclude prof)))
           Files := (keptEntries exclude prof).map (entryFile env dirs) } := by
  rw [report_eq env coverfile srcdir exclude prof dirs hp hd] at h
  cases hfe : firstError env dirs exclude prof with
  | some err => simp [hfe] at h
  | none =>
    simp only [hfe, Prod.mk.injEq, and_true] at h
    exact ⟨rfl, h.symm⟩

theorem entryError_none (env : Env) (dirs : env.Dirs) (p : Profile)
    (h : entryError env dirs p = none) :
    ∃ f funcs, env.findFile dirs p.FileName = .ok f ∧ env.findFuncs f = .ok funcs ∧
      entryFuncs env dirs p = funcs := by
  unfold entryError at h
  unfold entryFuncs
  cases hf : env.findFile dirs p.FileName with
  | error err => simp [hf] at h
  | ok f =>
    cases hg : env.findFuncs f with
    | error err => simp [hf, hg] at h
    | ok funcs => exact ⟨f, funcs, rfl, by simp [hg], by simp [hg]⟩

theorem GoMap.get_foldl_set {V : Type} (key : V → String) (l : List V) (m0 : GoMap V)
    (k : String) :
    GoMap.get (l.foldl (fun m x => m.set (key x) x) m0) k =
      match l.reverse.find? (fun x => decide (key x = k)) with
      | some x => some x
      | none => GoMap.get m0 k := by
  induction l generalizing m0 with
  | nil => simp
  | cons x rest ih =>
    rw [List.foldl_cons, ih, List.reverse_cons, List.find?_append]
    cases hfind : List.find? (fun x => decide (key x = k)) rest.reverse with
    | some y => simp
    | none =>
      by_cases hk : key x = k
      · simp [GoMap.set, GoMap.get, hk]
      · simp [GoMap.set, GoMap.get, hk]

theorem baselineFiles_get (O1 : overview) (name : String) :
    GoMap.get (baselineFiles O1) name = baselineFile O1 name := by
  unfold baselineFiles baselineFile
  rw [GoMap.get_foldl_set (fun f : file => f.Name)]
  cases List.find? (fun f : file => decide (f.Name = name)) O1.Files.reverse <;> simp [GoMap.get]

theorem baselineFuncs_get (f1 : file) (name : String) :
    GoMap.get (baselineFuncs f1) name =
      f1.Funcs.reverse.find? (fun fn => decide (fn.Name = name)) := by
  unfold baselineFuncs
  rw [GoMap.get_foldl_set (fun fn : Fun => fn.Name)]
  cases List.find? (fun fn : Fun => decide (fn.Name = name)) f1.Funcs.reverse <;> simp [GoMap.get]

theorem diffFuncs_eq (f1 f2 : file) (funcs : GoMap Fun) (l : List Fun) (shown : Bool)
    (tab : List DiffLine) :
    diffFuncs f1 f2 funcs l (shown, tab) =
      if l.filterMap (fun fn2 =>
          if mapCoverage funcs fn2.Name ≠ fn2.Coverage then
            some (DiffLine.funcRow fn2.Name (mapCoverage funcs fn2.Name) fn2.Coverage
              (fn2.Coverage - mapCoverage funcs fn2.Name))
          else none) = [] then (shown, tab)
      else (true, tab ++
        (if shown then [] else
          [DiffLine.fileHeader f2.Name f1.Coverage f2.Coverage (f2.Coverage - f1.Coverage)]) ++
        l.filterMap (fun fn2 =>
          if mapCoverage funcs fn2.Name ≠ fn2.Coverage then
            some (DiffLine.funcRow fn2.Name (mapCoverage funcs fn2.Name) fn2.Coverage
              (fn2.Coverage - mapCoverage funcs fn2.Name))
          else none)) := by
  induction l generalizing shown tab with
  | nil => simp [diffFuncs]
  | cons fn2 rest ih =>
    have hc : (match GoMap.get funcs fn2.Name with
        | some fn => fn
        | none => ({ Name := fn2.Name, Coverage := 0 } : Fun)).Coverage
        = mapCoverage funcs fn2.Name := by
      unfold mapCoverage
      cases GoMap.get funcs fn2.Name <;> rfl
    by_cases hne : mapCoverage funcs fn2.Name = fn2.Coverage
    · simp only [diffFuncs, hc, hne, ne_eq, not_true_eq_false, if_false, ih, List.filterMap_cons]
    · simp only [diffFuncs, hc, hne, ne_eq, not_false_eq_true, if_true, ih, List.filterMap_cons]
      cases shown <;> simp

theorem diffFile_eq (O1 : overview) (f2 : file) :
    diffFile (baselineFiles O1) f2 = fileSection O1 f2 := by
  unfold fileSection
  have key : ∀ f1 : file,
      (match baselineFile O1 f2.Name with
        | some f => f
        | none => ({ Name := f2.Name, Coverage := 0, Funcs := [] } : file)) = f1 →
      f1.Coverage = baselineFileCoverage O1 f2.Name ∧
      ∀ n, mapCoverage (baselineFuncs f1) n = baselineCoverage O1 f2.Name n := by
    intro f1 h
    subst h
    unfold baselineFileCoverage baselineCoverage baselineFunc mapCoverage
    cases hb : baselineFile O1 f2.Name with
    | none => simp [baselineFuncs, GoMap.get]
    | some f => simp [baselineFuncs_get]
  unfold diffFile
  simp only [baselineFiles_get, diffFuncs_eq]
  obtain ⟨h1, h2⟩ := key _ rfl
  simp only [h1, h2, changedRows, headerOf, rowOf]
  split_ifs <;> simp_all

theorem foldl_append_eq_flatMap {α β : Type} (g : α → List β) (l : List α) (b : List β) :
    l.foldl (fun b x => b ++ g x) b = b ++ l.flatMap g := by
  induction l generalizing b with
  | nil => simp
  | cons x rest ih => simp [ih]

theorem diffOverviews_eq (O1 O2 : overview) :
    diffOverviews O1 O2 = totalLines O1 O2 ++ O2.Files.flatMap (fileSection O1) := by
  unfold diffOverviews totalLines
  simp only [foldl_append_eq_flatMap]
  congr 1
  congr 1
  funext f2
  exact diffFile_eq O1 f2

theorem mem_changedRows (O1 : overview) (f2 : file) (l : DiffLine) :
    l ∈ changedRows O1 f2 ↔
      ∃ fn2 ∈ f2.Funcs, baselineCoverage O1 f2.Name fn2.Name ≠ fn2.Coverage ∧
        l = rowOf O1 f2 fn2 := by
  unfold changedRows
  simp only [List.mem_filterMap]
  constructor
  · rintro ⟨fn2, hfn, h⟩
    by_cases hc : baselineCoverage O1 f2.Name fn2.Name = fn2.Coverage
    · simp [hc] at h
    · simp only [ne_eq, hc, not_false_eq_true, if_true, Option.some.injEq] at h
      exact ⟨fn2, hfn, hc, h.symm⟩
  · rintro ⟨fn2, hfn, hc, rfl⟩
    exact ⟨fn2, hfn, by simp [hc]⟩

theorem isFuncRow_of_mem_changedRows (O1 : overview) (f2 : file) (l : DiffLine)
    (h : l ∈ changedRows O1 f2) : l.isFuncRow = true := by
  obtain ⟨fn2, _, _, rfl⟩ := (mem_changedRows O1 f2 l).1 h
  rfl

theorem filter_isFuncRow_fileSection (O1 : overview) (f2 : file) :
    (fileSection O1 f2).filter DiffLine.isFuncRow = changedRows O1 f2 := by
  have hrows : (changedRows O1 f2).filter DiffLine.isFuncRow = changedRows O1 f2 :=
    List.filter_eq_self.2 (fun l hl => isFuncRow_of_mem_changedRows O1 f2 l hl)
  unfold fileSection
  by_cases hnil : changedRows O1 f2 = []
  · simp [hnil]
  · simp only [hnil, if_false]
    rw [List.filter_cons]
    simp [headerOf, DiffLine.isFuncRow, hrows]

theorem mem_fileSection_funcRow (O1 : overview) (f2 : file) (l : DiffLine)
    (hrow : l.isFuncRow = true) : l ∈ fileSection O1 f2 ↔ l ∈ changedRows O1 f2 := by
  rw [← filter_isFuncRow_fileSection O1 f2, List.mem_filter]
  simp [hrow]

theorem mem_diffOverviews_funcRow (O1 O2 : overview) (l : DiffLine)
    (hrow : l.isFuncRow = true) :
    l ∈ diffOverviews O1 O2 ↔ ∃ f2 ∈ O2.Files, l ∈ changedRows O1 f2 := by
  rw [diffOverviews_eq, List.mem_append, List.mem_flatMap]
  have htot : l ∉ totalLines O1 O2 := by
    unfold totalLines
    intro hmem
    split_ifs at hmem
    · simp only [List.mem_singleton] at hmem
      subst hmem
      simp [DiffLine.isFuncRow] at hrow
    · simp at hmem
  constructor
  · rintro (h | ⟨f2, hf, h⟩)
    · exact absurd h htot
    · exact ⟨f2, hf, (mem_fileSection_funcRow O1 f2 l hrow).1 h⟩
  · rintro ⟨f2, hf, h⟩
    exact Or.inr ⟨f2, hf, (mem_fileSection_funcRow O1 f2 l hrow).2 h⟩

theorem rowOf_mem_diffOverviews (O1 O2 : overview) (f2 : file) (fn2 : Fun)
    (hf : f2 ∈ O2.Files) (hfn : fn2 ∈ f2.Funcs) :
    rowOf O1 f2 fn2 ∈ diffOverviews O1 O2 ↔
      fn2.Coverage ≠ baselineCoverage O1 f2.Name fn2.Name := by
  rw [mem_diffOverviews_funcRow O1 O2 (rowOf O1 f2 fn2) rfl]
  constructor
  · rintro ⟨g2, _, hmem⟩
    obtain ⟨gn2, _, hne, heq⟩ := (mem_changedRows O1 g2 _).1 hmem
    simp only [rowOf, DiffLine.funcRow.injEq] at heq
    obtain ⟨_, hold, hnew, _⟩ := heq
    rw [hold, hnew]
    exact fun h => hne h.symm
  · intro hne
    exact ⟨f2, hf, (mem_changedRows O1 f2 _).2 ⟨fn2, hfn, fun h => hne h.symm, rfl⟩⟩

theorem baselineCoverage_absent (O1 : overview) (fileName fnName : String)
    (habs : ∀ f1, baselineFile O1 fileName = some f1 → ∀ fn1 ∈ f1.Funcs, fn1.Name ≠ fnName) :
    baselineCoverage O1 fileName fnName = 0 := by
  unfold baselineCoverage baselineFunc
  cases hb : baselineFile O1 fileName with
  | none => rfl
  | some f1 =>
    have hnone : f1.Funcs.reverse.find? (fun fn => decide (fn.Name = fnName)) = none := by
      rw [List.find?_eq_none]
      intro fn hmem
      simpa using habs f1 hb fn (List.mem_reverse.1 hmem)
    simp [hnone]

theorem find?_reverse_of_nodup {α : Type} (key : α → String) (l : List α) (x : α)
    (hnd : (l.map key).Nodup) (hx : x ∈ l) :
    l.reverse.find? (fun y => decide (key y = key x)) = some x := by
  cases hfind : l.reverse.find? (fun y => decide (key y = key x)) with
  | none =>
    rw [List.find?_eq_none] at hfind
    exact absurd (by simp) (hfind x (List.mem_reverse.2 hx))
  | some y =>
    have hy : y ∈ l := List.mem_reverse.1 (List.mem_of_find?_eq_some hfind)
    have hk : key y = key x := by simpa using List.find?_some hfind
    rw [List.inj_on_of_nodup_map hnd hy hx hk]

theorem baselineCoverage_self (O : overview) (f : file) (fn : Fun)
    (hfiles : (O.Files.map file.Name).Nodup) (hf : f ∈ O.Files) (hfn : fn ∈ f.Funcs)
    (hfuncs : ∀ gn ∈ f.Funcs, fn.Name = gn.Name → fn.Coverage = gn.Coverage) :
    baselineCoverage O f.Name fn.Name = fn.Coverage := by
  unfold baselineCoverage baselineFunc baselineFile
  rw [find?_reverse_of_nodup file.Name O.Files f hfiles hf]
  simp only []
  cases hfind : f.Funcs.reverse.find? (fun gn => decide (gn.Name = fn.Name)) with
  | none =>
    rw [List.find?_eq_none] at hfind
    exact absurd (by simp) (hfind fn (List.mem_reverse.2 hfn))
  | some gn =>
    have hg : gn ∈ f.Funcs := List.mem_reverse.1 (List.mem_of_find?_eq_some hfind)
    have hk : gn.Name = fn.Name := by simpa using List.find?_some hfind
    simp only [hfind]
    exact (hfuncs gn hg hk.symm).symm

theorem diff_eq_of_reports (env : Env) (html : Bool) (coverfile prevfile srcdir : String)
    (exclude : List String) (r1 r2 : overview)
    (h1 : report env prevfile srcdir exclude = (r1, none))
    (h2 : report env coverfile srcdir exclude = (r2, none)) :
    diff env html coverfile prevfile srcdir exclude = (diffOverviews r1 r2, none) := by
  unfold diff
  rw [h1]
  simp only []
  rw [h2]

theorem filterMap_sublist_map {α β : Type} (f : α → Option β) (g : α → β) (l : List α)
    (h : ∀ a b, f a = some b → b = g a) : List.Sublist (l.filterMap f) (l.map g) := by
  induction l with
  | nil => simp
  | cons a rest ih =>
    rw [List.filterMap_cons, List.map_cons]
    cases hfa : f a with
    | none => exact List.Sublist.cons _ ih
    | some b =>
      rw [h a b hfa]
      exact List.Sublist.cons₂ _ ih

theorem headerNames_changedRows (O1 : overview) (f2 : file) :
    headerNames (changedRows O1 f2) = [] := by
  unfold headerNames
  rw [List.filterMap_eq_nil_iff]
  intro l hl
  obtain ⟨fn2, _, _, rfl⟩ := (mem_changedRows O1 f2 l).1 hl
  rfl

theorem headerNames_fileSection (O1 : overview) (f2 : file) :
    headerNames (fileSection O1 f2) = if changedRows O1 f2 = [] then [] else [f2.Name] := by
  unfold fileSection
  by_cases hnil : changedRows O1 f2 = []
  · simp [hnil, headerNames]
  · have h := headerNames_changedRows O1 f2
    unfold headerNames at h
    simp [hnil, headerNames, headerOf, DiffLine.headerName?, h]

theorem rowNames_fileSection (O1 : overview) (f2 : file) :
    List.Sublist (rowNames (fileSection O1 f2)) (f2.Funcs.map Fun.Name) := by
  have hrows : List.Sublist (rowNames (changedRows O1 f2)) (f2.Funcs.map Fun.Name) := by
    unfold rowNames changedRows
    rw [List.filterMap_filterMap]
    apply filterMap_sublist_map
    intro fn2 name h
    by_cases hc : baselineCoverage O1 f2.Name fn2.Name = fn2.Coverage
    · simp [hc] at h
    · simp [hc, rowOf, DiffLine.rowName?] at h
      exact h.symm
  unfold fileSection
  by_cases hnil : changedRows O1 f2 = []
  · simp [hnil, rowNames]
  · simp only [hnil, if_false]
    have hcons : rowNames (headerOf O1 f2 :: changedRows O1 f2) = rowNames (changedRows O1 f2) := by
      simp [rowNames, headerOf, DiffLine.rowName?]
    rw [hcons]
    exact hrows

theorem headerNames_totalLines (O1 O2 : overview) : headerNames (totalLines O1 O2) = [] := by
  unfold totalLines headerNames
  split_ifs <;> simp [DiffLine.headerName?]

theorem rowNames_totalLines (O1 O2 : overview) : rowNames (totalLines O1 O2) = [] := by
  unfold totalLines rowNames
  split_ifs <;> simp [DiffLine.rowName?]

theorem headerNames_sections (O1 : overview) (files : List file) :
    List.Sublist (headerNames (files.flatMap (fileSection O1))) (files.map file.Name) := by
  induction files with
  | nil => simp [headerNames]
  | cons f2 rest ih =>
    have hsec : List.Sublist (headerNames (fileSection O1 f2)) [f2.Name] := by
      rw [headerNames_fileSection]
      split_ifs <;> simp
    have happ : headerNames ((f2 :: rest).flatMap (fileSection O1)) =
        headerNames (fileSection O1 f2) ++ headerNames (rest.flatMap (fileSection O1)) := by
      simp [headerNames]
    rw [happ, List.map_cons]
    exact List.Sublist.append hsec ih

theorem rowNames_sections (O1 : overview) (files : List file) :
    List.Sublist (rowNames (files.flatMap (fileSection O1)))
      (files.flatMap (fun f2 => f2.Funcs.map Fun.Name)) := by
  induction files with
  | nil => simp [rowNames]
  | cons f2 rest ih =>
    have happ : rowNames ((f2 :: rest).flatMap (fileSection O1)) =
        rowNames (fileSection O1 f2) ++ rowNames (rest.flatMap (fileSection O1)) := by
      simp [rowNames]
    rw [happ, List.flatMap_cons]
    exact List.Sublist.append (rowNames_fileSection O1 f2) ih

theorem fileSection_block (O1 O2 : overview) (f2 : file) (hf : f2 ∈ O2.Files) :
    List.IsInfix (fileSection O1 f2) (diffOverviews O1 O2) := by
  obtain ⟨s, t, hst⟩ := List.append_of_mem hf
  rw [diffOverviews_eq, hst]
  exact ⟨totalLines O1 O2 ++ s.flatMap (fileSection O1), t.flatMap (fileSection O1), by simp⟩

theorem fileSection_eq_nil_iff (O1 : overview) (f2 : file) :
    fileSection O1 f2 = [] ↔
      ∀ fn2 ∈ f2.Funcs, fn2.Coverage = baselineCoverage O1 f2.Name fn2.Name := by
  have hrows : changedRows O1 f2 = [] ↔
      ∀ fn2 ∈ f2.Funcs, fn2.Coverage = baselineCoverage O1 f2.Name fn2.Name := by
    unfold changedRows
    rw [List.filterMap_eq_nil_iff]
    constructor
    · intro h fn2 hfn
      by_contra hne
      have := h fn2 hfn
      simp only [ne_eq, ite_eq_right_iff, reduceCtorEq, imp_false, not_not] at this
      exact hne this.symm
    · intro h fn2 hfn
      simp [h fn2 hfn]
  rw [← hrows]
  unfold fileSection
  by_cases hnil : changedRows O1 f2 = [] <;> simp [hnil]

theorem excludedByPrefix_of_InStringSlice (exclude : List String) (name : String)
    (h : InStringSlice exclude name = true) : excludedByPrefix exclude name = true := by
  induction exclude with
  | nil => simp [InStringSlice] at h
  | cons item rest ih =>
    unfold InStringSlice at h
    by_cases hi : item = name
    · subst hi
      simp [excludedByPrefix, HasPrefix, List.isPrefixOf_iff_prefix]
    · simp only [hi, if_false] at h
      have := ih h
      simp only [excludedByPrefix, List.any_eq_true] at this ⊢
      obtain ⟨e, he, hpre⟩ := this
      exact ⟨e, List.mem_cons_of_mem _ he, hpre⟩

theorem keptEntries_eq_nonExcluded (exclude : List String) (prof : List Profile)
    (hagree : ∀ p ∈ prof, excludedByPrefix exclude p.FileName = true →
      InStringSlice exclude p.FileName = true) :
    keptEntries exclude prof = nonExcluded exclude prof := by
  unfold keptEntries nonExcluded
  apply List.filter_congr
  intro p hp
  cases hx : InStringSlice exclude p.FileName with
  | true => simp [excludedByPrefix_of_InStringSlice exclude p.FileName hx]
  | false =>
    cases he : excludedByPrefix exclude p.FileName with
    | false => rfl
    | true => rw [hagree p hp he] at hx; cases hx

/-! ## Evaluations at the concrete inputs -/

theorem report_twoFilesEnv :
    report twoFilesEnv "cover.out" "." [] = (twoFilesOverview, none) := by
  simp [report, twoFilesEnv, twoFilesOverview, exampleEnv, entryA, entryB, block, extent,
    reportLoop, reportFuncs, InStringSlice, percent, filePercent, sumCovered, sumTotal,
    FuncExtent.coverage, countBlocks, wrap64, overview.zero]
  norm_num

theorem report_excludingEnv :
    report excludingEnv "cover.out" "." ["gen.go"] = (twoFilesOverview, none) := by
  simp [report, excludingEnv, twoFilesOverview, exampleEnv, entryA, entryB, entryGen, block,
    extent, reportLoop, reportFuncs, InStringSlice, percent, filePercent, sumCovered, sumTotal,
    FuncExtent.coverage, countBlocks, wrap64, overview.zero]
  norm_num

theorem nonExcluded_excludingEnv :
    nonExcluded ["gen.go"] [entryA, entryGen, entryB] = [entryA, entryB] := by
  decide

theorem agree_excludingEnv :
    ∀ p ∈ [entryA, entryGen, entryB], excludedByPrefix ["gen.go"] p.FileName = true →
      InStringSlice ["gen.go"] p.FileName = true := by
  decide

/-! ## The claims on `report` -/

/-- C1, the code at the failing input: the exclude string `example.com/pkg/` is a
literal prefix of the file identifier `example.com/pkg/a.go` and differs from it; the
membership test of `report` is false for it, so `report` keeps the entry: the file is in
`Files` and its statement is counted in the total (100, where dropping the entry would
leave `percent(0, 0)`). -/
theorem report_keeps_prefix_match :
    "example.com/pkg/a.go" = "example.com/pkg/" ++ "a.go" ∧
    InStringSlice ["example.com/pkg/"] "example.com/pkg/a.go" = false ∧
    report prefixEnv "cover.out" "." ["example.com/pkg/"] = (prefixOverview, none) ∧
    prefixOverview.Files.map file.Name = ["example.com/pkg/a.go"] ∧
    prefixOverview.Coverage = 100 ∧ prefixEnv.percent 0 0 = 0 := by
  refine ⟨by decide, by decide, ?_, rfl, rfl, ?_⟩
  · simp [report, prefixEnv, prefixOverview, exampleEnv, entryPkgA, block, extent,
      reportLoop, reportFuncs, InStringSlice, percent, filePercent, sumCovered, sumTotal,
      FuncExtent.coverage, countBlocks, wrap64, overview.zero]
  · simp [prefixEnv, exampleEnv, percent]

/-- C2, counterexample: the file `big.go` of `overflowEnv` has two functions of `2^62`
statements each, the first hit. The sums are covered `2^62` and total `2^63`; the `int64`
counter `total` wraps to `-2^63`, and `report` returns the total percentage
`percent(2^62, -2^63) = -50`, not `percent(2^62, 2^63) = 50`. -/
theorem report_total_wraps :
    report overflowEnv "cover.out" "." [] = (overflowOverview, none) ∧
    overflowOverview.Coverage = -50 ∧
    sumCovered (nonExcludedCounts overflowEnv () [] [entryBig]) = 4611686018427387904 ∧
    sumTotal (nonExcludedCounts overflowEnv () [] [entryBig]) = 9223372036854775808 ∧
    overflowEnv.percent (sumCovered (nonExcludedCounts overflowEnv () [] [entryBig]))
      (sumTotal (nonExcludedCounts overflowEnv () [] [entryBig])) = 50 := by
  have hc : nonExcludedCounts overflowEnv () [] [entryBig] =
      [(4611686018427387904, 4611686018427387904), (0, 4611686018427387904)] := by
    simp [nonExcludedCounts, nonExcluded, excludedByPrefix, entryCounts, entryFuncs,
      overflowEnv, exampleEnv, entryBig, block, extent, FuncExtent.coverage, countBlocks,
      wrap64]
  refine ⟨?_, rfl, ?_, ?_, ?_⟩
  · simp [report, overflowEnv, overflowOverview, exampleEnv, entryBig, block, extent,
      reportLoop, reportFuncs, InStringSlice, percent, filePercent, sumCovered, sumTotal,
      FuncExtent.coverage, countBlocks, wrap64, overview.zero]
    norm_num
  · rw [hc]
    simp [sumCovered]
  · rw [hc]
    simp [sumTotal]
  · rw [hc]
    simp [sumCovered, sumTotal, overflowEnv, exampleEnv, percent]
    norm_num

/-- C2, amended: when `report` succeeds on a profile in which every entry whose file
identifier starts with an exclude string is equal to one (so that the membership test of
the code and the prefix test agree), the total percentage of its overview is
`percent(C, T)`, `C` and `T` being the `int64` values of the sums of the covered and total
counts the per-function coverage calculation returns over all functions of all
non-excluded entries: the sums themselves when they lie in the `int64` range. On the
three-file input with `gen.go` excluded the result is 25 = `percent(1, 4)` while the mean
of the file percentages is 50. -/
theorem report_total_is_percent_of_sums :
    (∀ (env : Env) (coverfile srcdir : String) (exclude : List String) (prof : List Profile)
        (dirs : env.Dirs) (ov : overview),
      env.ParseProfiles coverfile = .ok prof → env.findPkgs srcdir prof = .ok dirs →
      report env coverfile srcdir exclude = (ov, none) →
      (∀ p ∈ prof, excludedByPrefix exclude p.FileName = true →
        InStringSlice exclude p.FileName = true) →
      ov.Coverage =
          env.percent (wrap64 (sumCovered (nonExcludedCounts env dirs exclude prof)))
            (wrap64 (sumTotal (nonExcludedCounts env dirs exclude prof))) ∧
      (inInt64 (sumCovered (nonExcludedCounts env dirs exclude prof)) →
        inInt64 (sumTotal (nonExcludedCounts env dirs exclude prof)) →
        ov.Coverage = env.percent (sumCovered (nonExcludedCounts env dirs exclude prof))
          (sumTotal (nonExcludedCounts env dirs exclude prof)))) ∧
    (∃ ov, report excludingEnv "cover.out" "." ["gen.go"] = (ov, none) ∧
      nonExcluded ["gen.go"] [entryA, entryGen, entryB] = [entryA, entryB] ∧
      sumCovered (nonExcludedCounts excludingEnv () ["gen.go"] [entryA, entryGen, entryB]) = 1 ∧
      sumTotal (nonExcludedCounts excludingEnv () ["gen.go"] [entryA, entryGen, entryB]) = 4 ∧
      ov.Coverage = 25 ∧ mean (ov.Files.map file.Coverage) = 50) := by
  constructor
  · intro env coverfile srcdir exclude prof dirs ov hp hd h hagree
    have hov := (report_ok env coverfile srcdir exclude prof dirs ov hp hd h).2
    have hcounts : allCounts env dirs exclude prof = nonExcludedCounts env dirs exclude prof := by
      unfold allCounts nonExcludedCounts
      rw [keptEntries_eq_nonExcluded exclude prof hagree]
    rw [hcounts] at hov
    have hcov : ov.Coverage =
        env.percent (wrap64 (sumCovered (nonExcludedCounts env dirs exclude prof)))
          (wrap64 (sumTotal (nonExcludedCounts env dirs exclude prof))) := by
      rw [hov]
    refine ⟨hcov, ?_⟩
    intro hc ht
    rw [hcov, wrap64_of_inInt64 _ hc, wrap64_of_inInt64 _ ht]
  · have hcounts : nonExcludedCounts excludingEnv () ["gen.go"] [entryA, entryGen, entryB] =
        [(1, 1), (0, 3)] := by
      unfold nonExcludedCounts
      rw [nonExcluded_excludingEnv]
      simp [entryCounts, entryFuncs, excludingEnv, exampleEnv, entryA, entryB, block, extent,
        FuncExtent.coverage, countBlocks, wrap64]
    refine ⟨twoFilesOverview, report_excludingEnv, nonExcluded_excludingEnv, ?_, ?_, rfl, ?_⟩
    · rw [hcounts]
      simp [sumCovered]
    · rw [hcounts]
      simp [sumTotal]
    · simp [mean, twoFilesOverview]
      norm_num

/-- C2, amended, at a concrete input: `excludingEnv` with `gen.go` excluded satisfies the
hypotheses, and the total of its overview is `percent` of the `int64` sums over `a.go` and
`b.go`. -/
theorem report_total_is_percent_of_sums_witness :
    excludingEnv.ParseProfiles "cover.out" = .ok [entryA, entryGen, entryB] ∧
    excludingEnv.findPkgs "." [entryA, entryGen, entryB] = .ok () ∧
    report excludingEnv "cover.out" "." ["gen.go"] = (twoFilesOverview, none) ∧
    (∀ p ∈ [entryA, entryGen, entryB], excludedByPrefix ["gen.go"] p.FileName = true →
      InStringSlice ["gen.go"] p.FileName = true) ∧
    twoFilesOverview.Coverage =
      excludingEnv.percent
        (wrap64 (sumCovered
          (nonExcludedCounts excludingEnv () ["gen.go"] [entryA, entryGen, entryB])))
        (wrap64 (sumTotal
          (nonExcludedCounts excludingEnv () ["gen.go"] [entryA, entryGen, entryB]))) :=
  ⟨rfl, rfl, report_excludingEnv, agree_excludingEnv,
    (report_total_is_percent_of_sums.1 excludingEnv "cover.out" "." ["gen.go"]
      [entryA, entryGen, entryB] () twoFilesOverview rfl rfl report_excludingEnv
      agree_excludingEnv).1⟩

/-- What `report` lists on success: the entries its membership test keeps, one file per
entry in profile order, each with the functions the extractor returns for it. -/
theorem report_files_of_kept_entries (env : Env) (coverfile srcdir : String)
    (exclude : List String) (prof : List Profile) (dirs : env.Dirs) (ov : overview)
    (hp : env.ParseProfiles coverfile = .ok prof) (hd : env.findPkgs srcdir prof = .ok dirs)
    (h : report env coverfile srcdir exclude = (ov, none)) :
    ov.Files.map file.Name =
      (prof.filter (fun p => !InStringSlice exclude p.FileName)).map Profile.FileName ∧
    List.Forall₂
      (fun o p => o.Name = p.FileName ∧
        ∃ f funcs, env.findFile dirs p.FileName = .ok f ∧ env.findFuncs f = .ok funcs ∧
          o.Funcs.map Fun.Name = funcs.map FuncExtent.name)
      ov.Files (prof.filter (fun p => !InStringSlice exclude p.FileName)) := by
  obtain ⟨hfe, hov⟩ := report_ok env coverfile srcdir exclude prof dirs ov hp hd h
  simp only [firstError, List.findSome?_eq_none_iff] at hfe
  rw [hov]
  constructor
  · simp [keptEntries, entryFile, Function.comp_def]
  · show List.Forall₂ _ ((keptEntries exclude prof).map (entryFile env dirs))
      (keptEntries exclude prof)
    simp only [List.forall₂_map_left_iff, List.forall₂_same]
    intro p hpk
    obtain ⟨f, funcs, h1, h2, h3⟩ := entryError_none env dirs p (hfe p hpk)
    refine ⟨rfl, f, funcs, h1, h2, ?_⟩
    simp [entryFile, h3, Function.comp_def]

/-- C8, the code at the failing input: with the exclude list `["example.com/pkg/"]` the
entry `example.com/pkg/a.go` is excluded by the prefix test, so the non-excluded entries
are `example.com/other/b.go` alone; `report` lists both files, the excluded one first. -/
theorem report_lists_excluded_file :
    excludedByPrefix ["example.com/pkg/"] "example.com/pkg/a.go" = true ∧
    nonExcluded ["example.com/pkg/"] [entryPkgA, entryOtherB] = [entryOtherB] ∧
    report twoPackagesEnv "cover.out" "." ["example.com/pkg/"] = (twoPackagesOverview, none) ∧
    twoPackagesOverview.Files.map file.Name =
      ["example.com/pkg/a.go", "example.com/other/b.go"] := by
  refine ⟨by decide, by decide, ?_, rfl⟩
  simp [report, twoPackagesEnv, twoPackagesOverview, exampleEnv, entryPkgA, entryOtherB, block,
    extent, reportLoop, reportFuncs, InStringSlice, percent, filePercent, sumCovered, sumTotal,
    FuncExtent.coverage, countBlocks, wrap64, overview.zero]
  norm_num

/-! ## The claims on `diff` -/

/-- C4: for every baseline `O1`, current overview `O2`, file `f2` of `O2` and function
`fn2` of `f2`, the row of `fn2` (its name, its baseline percentage, its current
percentage and their difference) is among the printed lines if and only if the current
percentage differs from the baseline percentage (0 when the file or the function is
absent from the baseline); and the function rows of the output are, in order, exactly
the rows of the changed functions, so an unchanged function has no row. -/
theorem diff_row_iff_changed (O1 O2 : overview) (f2 : file) (fn2 : Fun)
    (hf : f2 ∈ O2.Files) (hfn : fn2 ∈ f2.Funcs) :
    (DiffLine.funcRow fn2.Name (baselineCoverage O1 f2.Name fn2.Name) fn2.Coverage
        (fn2.Coverage - baselineCoverage O1 f2.Name fn2.Name) ∈ diffOverviews O1 O2 ↔
      fn2.Coverage ≠ baselineCoverage O1 f2.Name fn2.Name) ∧
    (diffOverviews O1 O2).filter DiffLine.isFuncRow =
      O2.Files.flatMap (fun g2 => g2.Funcs.filterMap (fun gn2 =>
        if baselineCoverage O1 g2.Name gn2.Name ≠ gn2.Coverage then
          some (DiffLine.funcRow gn2.Name (baselineCoverage O1 g2.Name gn2.Name) gn2.Coverage
            (gn2.Coverage - baselineCoverage O1 g2.Name gn2.Name))
        else none)) := by
  constructor
  · exact rowOf_mem_diffOverviews O1 O2 f2 fn2 hf hfn
  · rw [diffOverviews_eq, List.filter_append, List.filter_flatMap]
    have htot : (totalLines O1 O2).filter DiffLine.isFuncRow = [] := by
      unfold totalLines
      split_ifs <;> simp [DiffLine.isFuncRow]
    rw [htot, List.nil_append]
    congr 1
    funext g2
    rw [filter_isFuncRow_fileSection]
    rfl

/-- C4 at a concrete input: against `baseOverview`, the function `f` of `curFileA`
(50 before, 100 now) has its row in the output. -/
theorem diff_row_iff_changed_witness :
    curFileA ∈ curOverview.Files ∧ (⟨"f", 100⟩ : Fun) ∈ curFileA.Funcs ∧
    baselineCoverage baseOverview "a.go" "f" = 50 ∧
    DiffLine.funcRow "f" (baselineCoverage baseOverview "a.go" "f") 100
      (100 - baselineCoverage baseOverview "a.go" "f") ∈ diffOverviews baseOverview curOverview := by
  have hf : curFileA ∈ curOverview.Files := by simp [curOverview]
  have hfn : (⟨"f", 100⟩ : Fun) ∈ curFileA.Funcs := by simp [curFileA]
  have hb : baselineCoverage baseOverview "a.go" "f" = 50 := by
    simp [baselineCoverage, baselineFunc, baselineFile, baseOverview]
  refine ⟨hf, hfn, hb, ?_⟩
  have h := (diff_row_iff_changed baseOverview curOverview curFileA ⟨"f", 100⟩ hf hfn).1
  refine h.2 ?_
  show (100 : ℚ) ≠ baselineCoverage baseOverview "a.go" "f"
  rw [hb]
  norm_num

/-- C3, counterexample: the current profile of `newFileEnv` adds the file `b.go`, whose
function `g` is at 0 percent; the baseline has no file `b.go`, so `g` is a newly added
function, and `diff` prints the total line only: no row for `g`. -/
theorem diff_drops_new_function_at_zero :
    report newFileEnv "prev.out" "." [] = (newFileBaseline, none) ∧
    report newFileEnv "cover.out" "." [] = (twoFilesOverview, none) ∧
    diff newFileEnv false "cover.out" "prev.out" "." [] = ([DiffLine.total 100 25 (-75)], none) := by
  have h1 : report newFileEnv "prev.out" "." [] = (newFileBaseline, none) := by
    simp [report, newFileEnv, newFileBaseline, exampleEnv, entryA, block, extent,
      reportLoop, reportFuncs, InStringSlice, percent, filePercent, sumCovered, sumTotal,
      FuncExtent.coverage, countBlocks, wrap64, overview.zero]
  have h2 : report newFileEnv "cover.out" "." [] = (twoFilesOverview, none) := by
    simp [report, newFileEnv, twoFilesOverview, exampleEnv, entryA, entryB, block, extent,
      reportLoop, reportFuncs, InStringSlice, percent, filePercent, sumCovered, sumTotal,
      FuncExtent.coverage, countBlocks, wrap64, overview.zero]
    norm_num
  refine ⟨h1, h2, ?_⟩
  rw [diff_eq_of_reports newFileEnv false "cover.out" "prev.out" "." [] _ _ h1 h2]
  simp [diffOverviews, diffFile, diffFuncs, baselineFiles, baselineFuncs, GoMap.get, GoMap.set,
    newFileBaseline, twoFilesOverview]
  norm_num

/-- C3, amended: for a function `fn2` of a file `f2` of the current overview whose name
does not occur among the functions of the same-named baseline file (or whose file is
absent from the baseline), the row of `fn2`, with baseline percentage exactly 0, is among
the printed lines if and only if the current percentage of `fn2` is not 0; and every row
carrying the name of `fn2` in the lines of `f2` has baseline percentage 0. -/
theorem diff_new_function_row (O1 O2 : overview) (f2 : file) (fn2 : Fun)
    (hf : f2 ∈ O2.Files) (hfn : fn2 ∈ f2.Funcs)
    (habs : ∀ f1, baselineFile O1 f2.Name = some f1 → ∀ fn1 ∈ f1.Funcs, fn1.Name ≠ fn2.Name) :
    (DiffLine.funcRow fn2.Name 0 fn2.Coverage (fn2.Coverage - 0) ∈ diffOverviews O1 O2 ↔
      fn2.Coverage ≠ 0) ∧
    (∀ old new delta,
      DiffLine.funcRow fn2.Name old new delta ∈ diffFile (baselineFiles O1) f2 → old = 0) := by
  have hzero := baselineCoverage_absent O1 f2.Name fn2.Name habs
  constructor
  · have h := rowOf_mem_diffOverviews O1 O2 f2 fn2 hf hfn
    simp only [rowOf, hzero] at h
    exact h
  · intro old new delta hmem
    rw [diffFile_eq] at hmem
    have hrows :=
      (mem_fileSection_funcRow O1 f2 (DiffLine.funcRow fn2.Name old new delta) rfl).1 hmem
    obtain ⟨gn2, _, _, heq⟩ := (mem_changedRows O1 f2 _).1 hrows
    simp only [rowOf, DiffLine.funcRow.injEq] at heq
    obtain ⟨hname, hold, _, _⟩ := heq
    rw [hold, ← hname, hzero]

/-- C3, amended, at a concrete input: `h` is new in `curFileA` against `baseOverview` and
is at 25 percent, so its row, with baseline 0, is printed. -/
theorem diff_new_function_row_witness :
    curFileA ∈ curOverview.Files ∧ (⟨"h", 25⟩ : Fun) ∈ curFileA.Funcs ∧
    (∀ f1, baselineFile baseOverview curFileA.Name = some f1 →
      ∀ fn1 ∈ f1.Funcs, fn1.Name ≠ "h") ∧
    DiffLine.funcRow "h" 0 25 (25 - 0) ∈ diffOverviews baseOverview curOverview := by
  have hf : curFileA ∈ curOverview.Files := by simp [curOverview]
  have hfn : (⟨"h", 25⟩ : Fun) ∈ curFileA.Funcs := by simp [curFileA]
  have habs : ∀ f1, baselineFile baseOverview curFileA.Name = some f1 →
      ∀ fn1 ∈ f1.Funcs, fn1.Name ≠ "h" := by
    intro f1 h1
    simp [baselineFile, baseOverview, curFileA] at h1
    subst h1
    simp
  exact ⟨hf, hfn, habs,
    (diff_new_function_row baseOverview curOverview curFileA ⟨"h", 25⟩ hf hfn habs).1.2
      (by norm_num)⟩

/-- C10, counterexample: the file `a.go` of `methodsEnv` declares two methods named
`String`, the first at 100 percent and the second at 0; diffing the profile against
itself prints a header and a row `String 0 → 100`, because the name-keyed lookup of the
first method finds the second. The same happens for an overview with two files of one
name. -/
theorem diff_self_not_empty :
    report methodsEnv "cover.out" "." [] = (methodsOverview, none) ∧
    diff methodsEnv false "cover.out" "cover.out" "." [] =
      ([DiffLine.fileHeader "a.go" 50 50 0, DiffLine.funcRow "String" 0 100 100], none) ∧
    diffOverviews sameNameOverview sameNameOverview =
      [DiffLine.fileHeader "a.go" 0 50 50, DiffLine.funcRow "f" 0 50 50] := by
  have h1 : report methodsEnv "cover.out" "." [] = (methodsOverview, none) := by
    simp [report, methodsEnv, methodsOverview, exampleEnv, entryMethods, block, extent,
      reportLoop, reportFuncs, InStringSlice, percent, filePercent, sumCovered, sumTotal,
      FuncExtent.coverage, countBlocks, wrap64, overview.zero]
    norm_num
  refine ⟨h1, ?_, ?_⟩
  · rw [diff_eq_of_reports methodsEnv false "cover.out" "cover.out" "." [] _ _ h1 h1]
    simp [diffOverviews, diffFile, diffFuncs, baselineFiles, baselineFuncs, GoMap.get,
      GoMap.set, methodsOverview]
  · simp [diffOverviews, diffFile, diffFuncs, baselineFiles, baselineFuncs, GoMap.get,
      GoMap.set, sameNameOverview]

/-- C10, amended: for an overview whose file names are pairwise distinct and in which
the functions of one file that share a name have the same percentage, diffing the
overview against itself prints nothing: no total line, no header and no row. So `diff`
of a profile against itself prints nothing whenever `report` yields such an overview. -/
theorem diff_self_empty (O : overview) (hfiles : (O.Files.map file.Name).Nodup)
    (hfuncs : ∀ f ∈ O.Files, ∀ fn ∈ f.Funcs, ∀ gn ∈ f.Funcs,
      fn.Name = gn.Name → fn.Coverage = gn.Coverage) :
    diffOverviews O O = [] ∧
    ∀ (env : Env) (html : Bool) (coverfile srcdir : String) (exclude : List String),
      report env coverfile srcdir exclude = (O, none) →
      diff env html coverfile coverfile srcdir exclude = ([], none) := by
  have hempty : diffOverviews O O = [] := by
    rw [diffOverviews_eq]
    have htot : totalLines O O = [] := by simp [totalLines]
    rw [htot, List.nil_append, List.flatMap_eq_nil_iff]
    intro f hf
    have hrows : changedRows O f = [] := by
      unfold changedRows
      rw [List.filterMap_eq_nil_iff]
      intro fn hfn
      simp [baselineCoverage_self O f fn hfiles hf hfn (hfuncs f hf fn hfn)]
    simp [fileSection, hrows]
  refine ⟨hempty, ?_⟩
  intro env html coverfile srcdir exclude h
  rw [diff_eq_of_reports env html coverfile coverfile srcdir exclude O O h h, hempty]

/-- C10, amended, at a concrete input: the two files of `twoFilesOverview` have distinct
names and one function each, and its diff against itself is empty. -/
theorem diff_self_empty_witness :
    (twoFilesOverview.Files.map file.Name).Nodup ∧
    (∀ f ∈ twoFilesOverview.Files, ∀ fn ∈ f.Funcs, ∀ gn ∈ f.Funcs,
      fn.Name = gn.Name → fn.Coverage = gn.Coverage) ∧
    diffOverviews twoFilesOverview twoFilesOverview = [] ∧
    diff twoFilesEnv false "cover.out" "cover.out" "." [] = ([], none) := by
  have hfiles : (twoFilesOverview.Files.map file.Name).Nodup := by
    simp [twoFilesOverview]
  have hfuncs : ∀ f ∈ twoFilesOverview.Files, ∀ fn ∈ f.Funcs, ∀ gn ∈ f.Funcs,
      fn.Name = gn.Name → fn.Coverage = gn.Coverage := by
    intro f hf fn hfn gn hgn _
    simp only [twoFilesOverview, List.mem_cons, List.mem_singleton, List.not_mem_nil,
      or_false] at hf
    rcases hf with rfl | rfl
    · simp only [List.mem_singleton] at hfn hgn
      rw [hfn, hgn]
    · simp only [List.mem_singleton] at hfn hgn
      rw [hfn, hgn]
  have h := diff_self_empty twoFilesOverview hfiles hfuncs
  exact ⟨hfiles, hfuncs, h.1, h.2 twoFilesEnv false "cover.out" "." [] report_twoFilesEnv⟩

/-- C7: the output of `diff` is the total line (if any) followed by the lines of the
files of the current overview, file by file in the order of the current overview; the
lines of a file hold at most its own header and rows of its own functions in their
order; so the header names form a subsequence of the current file names, the row names a
subsequence of the current function names, and a name that is no file of the current
overview (a file that occurs in the baseline only) has no header. -/
theorem diff_follows_current_order (O1 O2 : overview) :
    diffOverviews O1 O2 =
      totalLines O1 O2 ++ O2.Files.flatMap (diffFile (baselineFiles O1)) ∧
    (∀ f2 : file,
      List.Sublist (headerNames (diffFile (baselineFiles O1) f2)) [f2.Name] ∧
      List.Sublist (rowNames (diffFile (baselineFiles O1) f2)) (f2.Funcs.map Fun.Name)) ∧
    List.Sublist (headerNames (diffOverviews O1 O2)) (O2.Files.map file.Name) ∧
    List.Sublist (rowNames (diffOverviews O1 O2))
      (O2.Files.flatMap (fun f2 => f2.Funcs.map Fun.Name)) ∧
    (∀ name, name ∉ O2.Files.map file.Name →
      ∀ old new delta, DiffLine.fileHeader name old new delta ∉ diffOverviews O1 O2) := by
  have hfun : diffFile (baselineFiles O1) = fileSection O1 := funext (diffFile_eq O1)
  have hheaders : List.Sublist (headerNames (diffOverviews O1 O2)) (O2.Files.map file.Name) := by
    have happ : headerNames (diffOverviews O1 O2) =
        headerNames (totalLines O1 O2) ++ headerNames (O2.Files.flatMap (fileSection O1)) := by
      rw [diffOverviews_eq]
      simp [headerNames]
    rw [happ, headerNames_totalLines, List.nil_append]
    exact headerNames_sections O1 O2.Files
  have hrows : List.Sublist (rowNames (diffOverviews O1 O2))
      (O2.Files.flatMap (fun f2 => f2.Funcs.map Fun.Name)) := by
    have happ : rowNames (diffOverviews O1 O2) =
        rowNames (totalLines O1 O2) ++ rowNames (O2.Files.flatMap (fileSection O1)) := by
      rw [diffOverviews_eq]
      simp [rowNames]
    rw [happ, rowNames_totalLines, List.nil_append]
    exact rowNames_sections O1 O2.Files
  refine ⟨?_, ?_, hheaders, hrows, ?_⟩
  · rw [hfun]
    exact diffOverviews_eq O1 O2
  · intro f2
    rw [diffFile_eq]
    refine ⟨?_, rowNames_fileSection O1 f2⟩
    rw [headerNames_fileSection]
    split_ifs <;> simp
  · intro name hname old new delta hmem
    apply hname
    apply hheaders.subset
    unfold headerNames
    rw [List.mem_filterMap]
    exact ⟨_, hmem, rfl⟩

/-- C9: for a file `f2` of the current overview, the lines of `f2` form one block of the
output, and that block is either empty or the header of `f2` followed by a non-empty
list of function rows: the header occurs at most once, it occurs if and only if a
function row occurs, and it comes first. The block is empty exactly when no function of
`f2` changed, also when the baseline has no file of that name. The header carries the
baseline percentage of the file (0 when the baseline has no file of that name, else the
percentage of the baseline file), the current percentage and current minus baseline. -/
theorem diff_header_lazy (O1 O2 : overview) (f2 : file) (hf : f2 ∈ O2.Files) :
    List.IsInfix (diffFile (baselineFiles O1) f2) (diffOverviews O1 O2) ∧
    (diffFile (baselineFiles O1) f2 = [] ∨
      ∃ rows, rows ≠ [] ∧ (∀ l ∈ rows, l.isFuncRow = true) ∧
        diffFile (baselineFiles O1) f2 =
          DiffLine.fileHeader f2.Name (baselineFileCoverage O1 f2.Name) f2.Coverage
            (f2.Coverage - baselineFileCoverage O1 f2.Name) :: rows) ∧
    ((diffFile (baselineFiles O1) f2).filter DiffLine.isFileHeader).length ≤ 1 ∧
    ((∃ l ∈ diffFile (baselineFiles O1) f2, l.isFileHeader = true) ↔
      ∃ l ∈ diffFile (baselineFiles O1) f2, l.isFuncRow = true) ∧
    (diffFile (baselineFiles O1) f2 = [] ↔
      ∀ fn2 ∈ f2.Funcs, fn2.Coverage = baselineCoverage O1 f2.Name fn2.Name) ∧
    ((∀ f1 ∈ O1.Files, f1.Name ≠ f2.Name) → baselineFileCoverage O1 f2.Name = 0) ∧
    (∀ f1, baselineFile O1 f2.Name = some f1 →
      f1 ∈ O1.Files ∧ f1.Name = f2.Name ∧ baselineFileCoverage O1 f2.Name = f1.Coverage) := by
  rw [diffFile_eq]
  refine ⟨fileSection_block O1 O2 f2 hf, ?_, ?_, ?_, fileSection_eq_nil_iff O1 f2, ?_, ?_⟩
  · unfold fileSection
    by_cases hnil : changedRows O1 f2 = []
    · exact Or.inl (by simp [hnil])
    · exact Or.inr ⟨changedRows O1 f2, hnil,
        fun l hl => isFuncRow_of_mem_changedRows O1 f2 l hl, by simp [hnil, headerOf]⟩
  · have hrows : (changedRows O1 f2).filter DiffLine.isFileHeader = [] := by
      rw [List.filter_eq_nil_iff]
      intro l hl
      obtain ⟨fn2, _, _, rfl⟩ := (mem_changedRows O1 f2 l).1 hl
      simp [rowOf, DiffLine.isFileHeader]
    unfold fileSection
    by_cases hnil : changedRows O1 f2 = []
    · simp [hnil]
    · simp [hnil, headerOf, DiffLine.isFileHeader, hrows]
  · unfold fileSection
    by_cases hnil : changedRows O1 f2 = []
    · simp [hnil]
    · obtain ⟨r, hr⟩ := List.exists_mem_of_ne_nil _ hnil
      simp only [hnil, if_false]
      constructor
      · intro _
        exact ⟨r, List.mem_cons_of_mem _ hr, isFuncRow_of_mem_changedRows O1 f2 r hr⟩
      · intro _
        exact ⟨headerOf O1 f2, List.mem_cons_self _ _, rfl⟩
  · intro habs
    have hnone : baselineFile O1 f2.Name = none := by
      unfold baselineFile
      rw [List.find?_eq_none]
      intro f1 hmem
      simpa using habs f1 (List.mem_reverse.1 hmem)
    simp [baselineFileCoverage, hnone]
  · intro f1 hsome
    refine ⟨?_, ?_, by simp [baselineFileCoverage, hsome]⟩
    · exact List.mem_reverse.1 (List.mem_of_find?_eq_some hsome)
    · simpa using List.find?_some hsome

/-- C9 at a concrete input: against `baseOverview`, the lines of `curFileA` are its
header (75 before, 80 now) followed by the rows of `f` and of the new function `h`; the
unchanged `g` has no row. -/
theorem diff_header_lazy_witness :
    curFileA ∈ curOverview.Files ∧
    List.IsInfix (diffFile (baselineFiles baseOverview) curFileA)
      (diffOverviews baseOverview curOverview) ∧
    diffFile (baselineFiles baseOverview) curFileA =
      [DiffLine.fileHeader "a.go" 75 80 5, DiffLine.funcRow "f" 50 100 50,
        DiffLine.funcRow "h" 0 25 25] := by
  have hf : curFileA ∈ curOverview.Files := by simp [curOverview]
  refine ⟨hf, (diff_header_lazy baseOverview curOverview curFileA hf).1, ?_⟩
  simp [diffFile, diffFuncs, baselineFiles, baselineFuncs, GoMap.get, GoMap.set,
    baseOverview, curFileA]
  norm_num

end Goatcov
